import Mathlib

/-!
Verification development for the Krec2MP4 repository.

We shallowly embed the components the spec's claims are about:

* the `.krec` replay-log record parser (`krec_parse` in krec_parser.cpp),
* the PIF replay synchronizer state machine (`pif_replay_*` in pif_replay.cpp),
* the frame-capture pipeline's control flow as a trace-producing function
  (`frame_capture_callback`, `frame_capture_flush`, `cleanup_pbos`,
  `process_pbo_async` in frame_capture.cpp),
* the producer/worker handoff of the encode thread as a two-thread
  transition system (`encode_worker`, `wait_for_encode`),
* the A/V synchronizer scale computation of `mux_video_audio` and the
  session-epilogue decision logic of `convert_one` (converter.cpp).

Machine integers are modelled as `Nat`/`Int` (the quantities involved are
counters and byte values that never overflow in the source), and the
`double` arithmetic of the A/V scale is modelled over `ℚ` (exact field
arithmetic with the same guard structure).
-/

namespace Krec2MP4

/-! ### Krec replay-log data model (krec_parser.h / krec_parser.cpp)

`KrecHeader` keeps only the field the record parser and its consumers
read (`num_players`, a 32-bit signed integer at offset 268 of the file);
the name/timestamp fields of the C struct are never consulted by the
components under verification and are elided. -/

structure KrecHeader where
  num_players : Int
  deriving DecidableEq

structure KrecData where
  header : KrecHeader
  /-- Flat array of input frames, one byte per entry (each < 256 in real
  files); each frame is `num_players * 4` bytes. -/
  input_data : List Nat
  total_input_frames : Nat
  delay_frames : Nat
  deriving DecidableEq

/-- The clamp applied by both `krec_parse` and `pif_replay_callback`:
`if (num_players < 1) num_players = 1; if (num_players > 4) num_players = 4;` -/
def clamp_players (n : Int) : Int :=
  let n1 := if n < 1 then 1 else n
  if n1 > 4 then 4 else n1

/-- Accumulator of the record-scanning loop in `krec_parse`. -/
structure KrecAcc where
  input_data : List Nat
  total_input_frames : Nat
  delay_frames : Nat
  in_delay : Bool
  deriving DecidableEq

/-- One step of the record loop on a type-`0x12` record whose 16-bit
length field read `rlen`. -/
def recordStep (bpf rlen : Nat) (body : List Nat) (acc : KrecAcc) : KrecAcc :=
  if rlen > 0 then
    { acc with
      in_delay := false
      input_data := acc.input_data ++ body.take rlen
      total_input_frames := acc.total_input_frames + 1 }
  else
    { acc with
      delay_frames := acc.delay_frames + (if acc.in_delay then 1 else 0)
      input_data := acc.input_data ++ List.replicate bpf 0
      total_input_frames := acc.total_input_frames + 1 }

/-- Skipping a null-terminated string:
`while (scan < end && *scan != 0) scan++; if (scan < end) scan++;`. -/
def skip_cstr (l : List Nat) : List Nat := (l.dropWhile (· ≠ 0)).drop 1

/-- The record-scanning loop of `krec_parse` (krec_parser.cpp, lines
88–128).  `bytes` is the portion of the file after the fixed header; the
loop head `while (scan + 1 < end)` demands at least two remaining bytes.
Record types: `0x12` input frame (u16-LE length + payload; a record that
would run past the end of the buffer terminates the scan, and zero length
is a kaillera delay slot filled with `bytes_per_frame` zero bytes),
`0x14` player drop (null-terminated nick + 4 bytes of player number),
`0x08` chat (two null-terminated strings); any other type terminates the
scan. -/
def parse_records (bpf : Nat) (bytes : List Nat) (acc : KrecAcc) : KrecAcc :=
  match bytes with
  | t :: l1 :: l2 :: rest2 =>
    if t = 0x12 then
      let rlen := l1 + 256 * l2
      if rlen > 0 then
        if rlen ≤ rest2.length then
          parse_records bpf (rest2.drop rlen) (recordStep bpf rlen rest2 acc)
        else acc
      else
        parse_records bpf rest2 (recordStep bpf 0 rest2 acc)
    else if t = 0x14 then
      parse_records bpf ((skip_cstr (l1 :: l2 :: rest2)).drop 4) acc
    else if t = 0x08 then
      parse_records bpf (skip_cstr (skip_cstr (l1 :: l2 :: rest2))) acc
    else acc
  | [t, l1] =>
    if t = 0x12 then acc
    else if t = 0x14 then
      parse_records bpf ((skip_cstr [l1]).drop 4) acc
    else if t = 0x08 then
      parse_records bpf (skip_cstr (skip_cstr [l1])) acc
    else acc
  | _ => acc
termination_by bytes.length
decreasing_by
  all_goals
    have hdw : ∀ (p : Nat → Bool) (l : List Nat),
        (l.dropWhile p).length ≤ l.length := by
      intro p l
      induction l with
      | nil => simp [List.dropWhile]
      | cons a l ih =>
        simp only [List.dropWhile]
        cases p a
        · simp
        · simp only [List.length_cons]
          omega
    have hsc : ∀ l : List Nat, (skip_cstr l).length ≤ l.length := by
      intro l
      have h := hdw (fun x => decide (x ≠ 0)) l
      simp only [skip_cstr, List.length_drop]
      omega
  · simp only [List.length_drop, List.length_cons]
    omega
  · simp only [List.length_cons]
    omega
  · have h1 := hsc (l1 :: l2 :: rest2)
    simp only [List.length_drop, List.length_cons] at *
    omega
  · have h1 := hsc (l1 :: l2 :: rest2)
    have h2 := hsc (skip_cstr (l1 :: l2 :: rest2))
    simp only [List.length_cons] at *
    omega
  · have h1 := hsc [l1]
    simp only [List.length_drop, List.length_cons] at *
    omega
  · have h1 := hsc [l1]
    have h2 := hsc (skip_cstr [l1])
    simp only [List.length_cons] at *
    omega

/-- Model of `krec_parse` (krec_parser.cpp).  The file I/O, magic check
and fixed-offset header decode are elided; `num_players_field` is the
32-bit value `memcpy`'d from offset 268 into `out.header.num_players`,
and `records` are the bytes following the header.  Note the source
clamps only a local copy of the player count for `bytes_per_frame`; the
stored header field keeps the raw value. -/
def krec_parse (num_players_field : Int) (records : List Nat) : KrecData :=
  let bpf := (clamp_players num_players_field).toNat * 4
  let acc := parse_records bpf records
    { input_data := [], total_input_frames := 0, delay_frames := 0, in_delay := true }
  { header := { num_players := num_players_field }
    input_data := acc.input_data
    total_input_frames := acc.total_input_frames
    delay_frames := acc.delay_frames }

/-- A zero-length type-`0x12` record (kaillera delay padding). -/
def zero_record : List Nat := [0x12, 0, 0]

/-- A type-`0x12` record carrying `payload` (u16 little-endian length). -/
def data_record (payload : List Nat) : List Nat :=
  0x12 :: (payload.length % 256) :: (payload.length / 256) :: payload

/-- A record stream of `n` leading zero-length input records followed by
the given data-carrying input records. -/
def delay_then_data (n : Nat) (payloads : List (List Nat)) : List Nat :=
  (List.replicate n zero_record).flatten ++ (payloads.map data_record).flatten

/-- The initial accumulator of the scan (`out.input_data.clear();
out.total_input_frames = 0; out.delay_frames = 0; in_delay = true`). -/
def init_acc : KrecAcc :=
  { input_data := [], total_input_frames := 0, delay_frames := 0, in_delay := true }

/-! ### PIF replay synchronizer (pif_replay.cpp)

The joybus state machine that injects recorded input.  A `PifChannel`
records what the callback inspects about a channel: whether its `tx`
pointer is non-null, the command byte `tx_buf[0]`, and whether `rx` /
`rx_buf` are non-null.  The response bytes the callback writes into
`rx_buf` (controller-type descriptor, cached input words, pak status
codes) are outputs to core-owned memory and do not feed back into the
replay state, so the model returns, besides the successor state, the
list of `input_data` byte indices the call reads. -/

def JCMD_STATUS : Nat := 0x00

def JCMD_CONTROLLER_READ : Nat := 0x01

def JCMD_PAK_READ : Nat := 0x02

def JCMD_PAK_WRITE : Nat := 0x03

def JCMD_RESET : Nat := 0xFF

structure PifChannel where
  tx : Bool
  txCmd : Nat
  rx : Bool
  rxBuf : Bool
  deriving DecidableEq

structure Pif where
  channels : Fin 4 → PifChannel
  deriving DecidableEq

/-- The static replay state of pif_replay.cpp (`s_input_frame_index`,
`s_synced_this_frame`, `s_replay_finished`, `s_cached_input`,
`s_cached_num_players`).  The frame index is an `int` in the source that
is only ever set to 0 and incremented, so it is modelled as `Nat`. -/
structure ReplayState where
  input_frame_index : Nat
  synced_this_frame : Bool
  replay_finished : Bool
  cached_input : Fin 4 → Nat
  cached_num_players : Nat
  deriving DecidableEq

/-- `pif_replay_init`: the state after initialization (the `s_krec`
pointer itself is passed to the callback model separately). -/
def pif_replay_init : ReplayState :=
  { input_frame_index := 0
    synced_this_frame := false
    replay_finished := false
    cached_input := fun _ => 0
    cached_num_players := 0 }

/-- `pif_replay_reset_frame_sync`: clears only the per-tick guard. -/
def pif_replay_reset_frame_sync (s : ReplayState) : ReplayState :=
  { s with synced_this_frame := false }

/-- Little-endian 32-bit read, as `memcpy(&s_cached_input[i], src, 4)`
on a little-endian host; out-of-range indices default to 0 (the model
only reads them under the callback's own bounds guard). -/
def read_u32le (bytes : List Nat) (off : Nat) : Nat :=
  bytes.getD off 0 + 256 * bytes.getD (off + 1) 0
    + 65536 * bytes.getD (off + 2) 0 + 16777216 * bytes.getD (off + 3) 0

/-- The `is_controller_read` test of `pif_replay_callback`:
`pif->channels[0].tx && pif->channels[0].tx_buf[0] == JCMD_CONTROLLER_READ
&& pif->channels[0].rx_buf != nullptr`. -/
def is_controller_read (pif : Pif) : Bool :=
  (pif.channels 0).tx && (pif.channels 0).txCmd == JCMD_CONTROLLER_READ
    && (pif.channels 0).rxBuf

/-- `pif_replay_callback` (pif_replay.cpp, lines 302–375).  Returns the
successor replay state together with the list of `input_data` byte
indices read by this call.  `krec` is the `s_krec` pointer (`none`
models the null check on entry). -/
def pif_replay_callback (krec : Option KrecData) (pif : Pif) (s : ReplayState) :
    ReplayState × List Nat :=
  match krec with
  | none => (s, [])
  | some k =>
    if s.replay_finished then (s, [])
    else
      let num_players := (clamp_players k.header.num_players).toNat
      if is_controller_read pif ∧ s.synced_this_frame = false then
        let bytes_per_frame := num_players * 4
        let offset := s.input_frame_index * bytes_per_frame
        if offset + bytes_per_frame ≤ k.input_data.length then
          ({ s with
              synced_this_frame := true
              cached_num_players := num_players
              cached_input := fun i =>
                if (i : Nat) < num_players then read_u32le k.input_data (offset + i * 4)
                else s.cached_input i
              input_frame_index := s.input_frame_index + 1 },
           (List.range bytes_per_frame).map (offset + ·))
        else
          ({ s with
              synced_this_frame := true
              replay_finished := true
              cached_num_players := 0
              cached_input := fun _ => 0 }, [])
      else (s, [])

/-- One reset-tick: `pif_replay_reset_frame_sync` followed by any number
of `pif_replay_callback` invocations with arbitrary PIF contents. -/
def replay_tick (krec : Option KrecData) (s : ReplayState) (pifs : List Pif) :
    ReplayState :=
  pifs.foldl (fun st p => (pif_replay_callback krec p st).1)
    (pif_replay_reset_frame_sync s)

/-! ### Consumers of the recorded player count (converter.cpp / emulator.cpp) -/

/-- `Emulator::configure_controllers_for_replay` (emulator.cpp, lines
495–517): for profile `i` in 0..3 it sets `PluggedIn` to
`(i < num_players) ? 1 : 0`.  Only the plugged-in bits are modelled (the
pak `Plugin` value is the constant 1). -/
def configure_controllers_for_replay (num_players : Int) : Fin 4 → Bool :=
  fun i => decide ((i : Nat) < num_players)

/-- The call in `convert_one` (converter.cpp, line 1420):
`emu.configure_controllers_for_replay(krec.header.num_players);` — note
the raw header field is passed, not a clamped copy. -/
def convert_one_controllers (k : KrecData) : Fin 4 → Bool :=
  configure_controllers_for_replay k.header.num_players

/-! ### Concrete fixtures used by witnesses and concrete conjuncts -/

/-- A PIF snapshot in which every channel carries a controller-read
command with valid buffers. -/
def poll_pif : Pif :=
  { channels := fun _ =>
      { tx := true, txCmd := JCMD_CONTROLLER_READ, rx := true, rxBuf := true } }

/-- A parsed four-player replay log with exactly one input frame
(16 bytes). -/
def krec_four_players : KrecData :=
  { header := { num_players := 4 }
    input_data := List.replicate 16 0x11
    total_input_frames := 1
    delay_frames := 0 }

/-- A parsed one-player replay log with exactly one input frame
(4 bytes). -/
def krec_one_player : KrecData :=
  { header := { num_players := 1 }
    input_data := [1, 2, 3, 4]
    total_input_frames := 1
    delay_frames := 0 }

/-! ### Frame-capture pipeline control flow (frame_capture.cpp, PBO version)

The capture functions are embedded as trace-producing state functions:
they return the successor capture state together with the ordered list
of externally visible actions they perform (emulator stop command,
encoder open, GPU buffer operations, worker-thread handoffs).  External
inputs (cancel flag, replay-finished flag, screen size, glMapBuffer
success, encoder-open success, PBO function availability) are an
environment record.  The `ff_config` width/height bookkeeping and GL
bind/unbind calls carry no control-flow weight and are elided.  The
worker thread itself is modelled separately as a transition system
below; in this sequential model, posting a job (`postJob`) and the
blocking waits (`waitEncode`, `joinWorker`) are actions. -/

inductive CapAct where
  | stopEmu
  | disableSpeedLimiter
  | resetFrameSync
  | openEncoder (w h : Int)
  | waitEncode
  | mapCopy (slot : Nat)
  | postJob (w h : Int)
  | issueReadback (slot : Nat)
  | startWorker
  | joinWorker
  | deleteBuffers
  | syncReadback
  | writeFrameSync
  | progressReport (cur tot : Int)
  deriving DecidableEq

/-- The static state of frame_capture.cpp (`s_encoder_opened`,
`s_captured_frames`, `s_total_frames`, `s_speed_limiter_disabled`,
`s_pbo_initialized`, `s_pbo_has_data`, `s_pbo_index`, `s_pbo_width`,
`s_pbo_height`).  In the PBO path `s_captured_frames` is incremented by
the worker thread, so here it changes only on the synchronous fallback
path. -/
structure CaptureState where
  encoder_opened : Bool
  captured_frames : Int
  total_frames : Int
  speed_limiter_disabled : Bool
  pbo_initialized : Bool
  pbo_has_data : Bool
  pbo_index : Nat
  pbo_width : Int
  pbo_height : Int
  deriving DecidableEq

structure CaptureEnv where
  emu_present : Bool
  encoder_present : Bool
  cancel : Bool
  replay_finished : Bool
  screen_width : Int
  screen_height : Int
  encoder_open_ok : Bool
  pbo_funcs_ok : Bool
  map_ok : Bool
  progress_set : Bool
  deriving DecidableEq

/-- `process_pbo_async` (frame_capture.cpp, lines 166–187): wait for the
encode thread to finish the previous frame, then map the given PBO and,
if the map succeeded, copy it into the staging buffer and post the job
(set dimensions and `s_encode_has_work`, notify). -/
def process_pbo_async (map_ok : Bool) (slot : Nat) (w h : Int) : List CapAct :=
  CapAct.waitEncode ::
    (if map_ok then [CapAct.mapCopy slot, CapAct.postJob w h] else [])

/-- `cleanup_pbos` (frame_capture.cpp, lines 155–163): if the PBOs are
initialized, stop and join the encode thread, then delete the GPU
buffers and clear the flags. -/
def cleanup_pbos (s : CaptureState) : CaptureState × List CapAct :=
  if s.pbo_initialized then
    ({ s with pbo_initialized := false, pbo_has_data := false },
      [CapAct.joinWorker, CapAct.deleteBuffers])
  else (s, [])

/-- `frame_capture_flush` (frame_capture.cpp, lines 217–225): drain the
pending PBO (if any) into one final encode job, wait for that encode to
complete, then clean up. -/
def frame_capture_flush (env : CaptureEnv) (s : CaptureState) :
    CaptureState × List CapAct :=
  let drain :=
    if s.pbo_initialized ∧ s.pbo_has_data then
      process_pbo_async env.map_ok (1 - s.pbo_index) s.pbo_width s.pbo_height
    else []
  let c := cleanup_pbos s
  (c.1, drain ++ [CapAct.waitEncode] ++ c.2)

/-- The double-buffered tail of `frame_capture_callback` (lines 299–313):
hand the previous PBO to the encode thread if it has data, then issue an
asynchronous readback into the current PBO and toggle the index. -/
def capture_pbo_body (env : CaptureEnv) (s : CaptureState) (t : List CapAct) :
    CaptureState × List CapAct :=
  let drain :=
    if s.pbo_has_data then
      process_pbo_async env.map_ok (1 - s.pbo_index) s.pbo_width s.pbo_height
    else []
  ({ s with pbo_has_data := true, pbo_index := 1 - s.pbo_index },
    t ++ drain ++ [CapAct.issueReadback s.pbo_index])

/-- Lazy PBO initialization of `frame_capture_callback` (lines 278–297):
if the PBO GL entry points are unavailable, fall back to a fully
synchronous readback-flip-write on the emulation thread; otherwise
`init_pbos` (allocate both transfer buffers, start the worker) and
proceed with the double-buffered path. -/
def capture_pbo_stage (env : CaptureEnv) (s : CaptureState) (t : List CapAct) :
    CaptureState × List CapAct :=
  if s.pbo_initialized then capture_pbo_body env s t
  else if env.pbo_funcs_ok then
    capture_pbo_body env
      { s with
          pbo_width := env.screen_width
          pbo_height := env.screen_height
          pbo_index := 0
          pbo_has_data := false
          pbo_initialized := true }
      (t ++ [CapAct.startWorker])
  else
    ({ s with captured_frames := s.captured_frames + 1 },
      t ++ [CapAct.syncReadback, CapAct.writeFrameSync]
        ++ (if env.progress_set then
              [CapAct.progressReport (s.captured_frames + 1) s.total_frames]
            else []))

/-- `frame_capture_callback` (frame_capture.cpp, lines 227–314): cancel
check, speed-limiter disable on first frame, PIF frame-sync reset,
replay-finished check, screen-size query, lazy encoder open, then the
PBO capture path. -/
def frame_capture_callback (env : CaptureEnv) (s : CaptureState) :
    CaptureState × List CapAct :=
  if env.cancel then
    if env.emu_present then
      let c := cleanup_pbos s
      (c.1, c.2 ++ [CapAct.stopEmu])
    else (s, [])
  else
    let sl :=
      if ¬ s.speed_limiter_disabled ∧ env.emu_present then
        (({ s with speed_limiter_disabled := true } : CaptureState),
          [CapAct.disableSpeedLimiter])
      else (s, ([] : List CapAct))
    let s1 := sl.1
    let t1 := sl.2 ++ [CapAct.resetFrameSync]
    if env.replay_finished then
      (s1, t1 ++ if env.emu_present then [CapAct.stopEmu] else [])
    else if ¬ env.emu_present ∨ ¬ env.encoder_present then (s1, t1)
    else if env.screen_width ≤ 0 ∨ env.screen_height ≤ 0 then (s1, t1)
    else if s1.encoder_opened then capture_pbo_stage env s1 t1
    else if env.encoder_open_ok then
      capture_pbo_stage env { s1 with encoder_opened := true }
        (t1 ++ [CapAct.openEncoder env.screen_width env.screen_height])
    else
      (s1, t1 ++ [CapAct.openEncoder env.screen_width env.screen_height,
                  CapAct.stopEmu])

/-! ### Session epilogue of `convert_one` (converter.cpp, lines 1479–1513)

After `emu.execute()` returns and the emulator is shut down,
`convert_one` decides the session outcome from the cancel flag, the
captured-frame count and the audio byte count. -/

inductive ConvAct where
  | removeTempVideo
  | removeTempAudio
  | progressMuxPhase
  | muxCall
  | renameVideoToOutput
  deriving DecidableEq

structure ConvertEnd where
  cancelled : Bool
  frames_captured : Int
  audio_bytes : Nat
  mux_ok : Bool
  progress_set : Bool
  deriving DecidableEq

/-- The epilogue decision logic of `convert_one`: cancellation and a
non-positive capture count both remove the temporary video/audio files
and report failure; otherwise mux (or rename the video-only output when
there is no audio, or when the mux fails) and report success. -/
def convert_one_epilogue (e : ConvertEnd) : Bool × List ConvAct :=
  if e.cancelled then
    (false, [ConvAct.removeTempVideo, ConvAct.removeTempAudio])
  else if e.frames_captured ≤ 0 then
    (false, [ConvAct.removeTempVideo, ConvAct.removeTempAudio])
  else if e.audio_bytes > 0 then
    (true, (if e.progress_set then [ConvAct.progressMuxPhase] else [])
      ++ [ConvAct.muxCall]
      ++ (if e.mux_ok then [] else [ConvAct.renameVideoToOutput])
      ++ [ConvAct.removeTempVideo, ConvAct.removeTempAudio])
  else
    (true, [ConvAct.renameVideoToOutput, ConvAct.removeTempVideo,
            ConvAct.removeTempAudio])

/-! ### A/V synchronizer scale (converter.cpp, lines 1244–1247)

The `double` arithmetic is modelled over `ℚ`; the guard
`(audio_duration > 0 && video_duration > 0)` is kept verbatim. -/

def mux_itsscale (audio_bytes audio_freq frames_captured encode_fps : ℚ) : ℚ :=
  let audio_duration := audio_bytes / (audio_freq * 4)
  let video_duration := frames_captured / encode_fps
  if audio_duration > 0 ∧ video_duration > 0 then audio_duration / video_duration
  else 1

/-! ### Fixtures for the capture-pipeline theorems -/

/-- A mid-session capture state: PBOs initialized, previous slot pending. -/
def pending_slot_state : CaptureState :=
  { encoder_opened := true
    captured_frames := 5
    total_frames := 10
    speed_limiter_disabled := true
    pbo_initialized := true
    pbo_has_data := true
    pbo_index := 0
    pbo_width := 640
    pbo_height := 480 }

/-- A healthy environment with the cancel flag raised. -/
def cancel_env : CaptureEnv :=
  { emu_present := true
    encoder_present := true
    cancel := true
    replay_finished := false
    screen_width := 640
    screen_height := 480
    encoder_open_ok := true
    pbo_funcs_ok := true
    map_ok := true
    progress_set := true }

/-- A healthy environment in which the replay has finished. -/
def finished_env : CaptureEnv :=
  { cancel_env with cancel := false, replay_finished := true }

/-! ### Producer/worker handoff (frame_capture.cpp, lines 56–123 and 166–187)

A two-thread transition system over the shared encode-job state:
`s_encode_has_work`, `s_encode_shutdown`, `s_encode_mutex`.  The
producer (emulation thread) runs `process_pbo_async` — `wait_for_encode`
(a condition-variable wait on `!s_encode_has_work`), then the staging
copy outside the lock, then setting `s_encode_has_work` under the lock —
or `stop_encode_thread` (set shutdown under the lock, join).  The worker
runs `encode_worker`: wait for `has_work || shutdown`, exit on
`shutdown && !has_work`, otherwise flip under the lock, clear
`has_work`, unlock, and write the frame outside the lock.
Condition-variable waits are modelled with spurious wakeups allowed
(block, wake, reacquire, recheck), which over-approximates every notify
discipline. -/

inductive PLoc where
  | pIdle | pWaitLock | pWaitCheck | pBlocked | pCopy | pLock2 | pSet
  | pStopLock | pStopSet | pJoin | pDone
  deriving DecidableEq

inductive WLoc where
  | wWaitLock | wCheck | wBlocked | wFlip | wWrite | wExit
  deriving DecidableEq

inductive LockSt where
  | free | byProducer | byWorker
  deriving DecidableEq

structure EncSys where
  ploc : PLoc
  wloc : WLoc
  lock : LockSt
  hasWork : Bool
  shutdown : Bool
  deriving DecidableEq

/-- State right after `start_encode_thread`: no pending work, no
shutdown, both threads at their loop heads. -/
def enc_init : EncSys :=
  { ploc := .pIdle, wloc := .wWaitLock, lock := .free,
    hasWork := false, shutdown := false }

inductive EncStep : EncSys → EncSys → Prop where
  /-- Producer enters `process_pbo_async` and calls `wait_for_encode`. -/
  | p_begin_post (s : EncSys) (h : s.ploc = .pIdle) :
      EncStep s { s with ploc := .pWaitLock }
  /-- Producer enters `stop_encode_thread` instead (session teardown). -/
  | p_begin_stop (s : EncSys) (h : s.ploc = .pIdle) :
      EncStep s { s with ploc := .pStopLock }
  /-- `wait_for_encode` acquires the mutex. -/
  | p_wait_acquire (s : EncSys) (h : s.ploc = .pWaitLock) (hl : s.lock = .free) :
      EncStep s { s with ploc := .pWaitCheck, lock := .byProducer }
  /-- The wait predicate `!s_encode_has_work` holds: `wait_for_encode`
  returns, releasing the lock at scope exit; the producer proceeds to
  the staging-buffer copy. -/
  | p_wait_ready (s : EncSys) (h : s.ploc = .pWaitCheck) (hw : s.hasWork = false) :
      EncStep s { s with ploc := .pCopy, lock := .free }
  /-- The predicate fails: the condition variable releases the lock and
  blocks. -/
  | p_wait_block (s : EncSys) (h : s.ploc = .pWaitCheck) (hw : s.hasWork = true) :
      EncStep s { s with ploc := .pBlocked, lock := .free }
  /-- Wakeup (notified or spurious): reacquire and recheck. -/
  | p_wakeup (s : EncSys) (h : s.ploc = .pBlocked) :
      EncStep s { s with ploc := .pWaitLock }
  /-- `glMapBuffer`/`memcpy` into the staging buffer completes (outside
  the lock). -/
  | p_copy_done (s : EncSys) (h : s.ploc = .pCopy) :
      EncStep s { s with ploc := .pLock2 }
  /-- Producer acquires the mutex to publish the job. -/
  | p_post_acquire (s : EncSys) (h : s.ploc = .pLock2) (hl : s.lock = .free) :
      EncStep s { s with ploc := .pSet, lock := .byProducer }
  /-- Producer sets `s_encode_has_work = true`, unlocks and notifies. -/
  | p_post_set (s : EncSys) (h : s.ploc = .pSet) :
      EncStep s { s with ploc := .pIdle, hasWork := true, lock := .free }
  /-- `stop_encode_thread` acquires the mutex. -/
  | p_stop_acquire (s : EncSys) (h : s.ploc = .pStopLock) (hl : s.lock = .free) :
      EncStep s { s with ploc := .pStopSet, lock := .byProducer }
  /-- `s_encode_shutdown = true`, unlock, notify. -/
  | p_stop_set (s : EncSys) (h : s.ploc = .pStopSet) :
      EncStep s { s with ploc := .pJoin, shutdown := true, lock := .free }
  /-- `join` returns once the worker has exited. -/
  | p_join (s : EncSys) (h : s.ploc = .pJoin) (hw : s.wloc = .wExit) :
      EncStep s { s with ploc := .pDone }
  /-- Worker's loop head acquires the mutex for its wait. -/
  | w_acquire (s : EncSys) (h : s.wloc = .wWaitLock) (hl : s.lock = .free) :
      EncStep s { s with wloc := .wCheck, lock := .byWorker }
  /-- Wait predicate `has_work || shutdown` fails: release and block. -/
  | w_block (s : EncSys) (h : s.wloc = .wCheck) (hw : s.hasWork = false)
      (hs : s.shutdown = false) :
      EncStep s { s with wloc := .wBlocked, lock := .free }
  /-- Wakeup (notified or spurious). -/
  | w_wakeup (s : EncSys) (h : s.wloc = .wBlocked) :
      EncStep s { s with wloc := .wWaitLock }
  /-- `if (s_encode_shutdown && !s_encode_has_work) break;`. -/
  | w_exit (s : EncSys) (h : s.wloc = .wCheck) (hw : s.hasWork = false)
      (hs : s.shutdown = true) :
      EncStep s { s with wloc := .wExit, lock := .free }
  /-- Work available: proceed to the flip, still holding the lock. -/
  | w_take (s : EncSys) (h : s.wloc = .wCheck) (hw : s.hasWork = true) :
      EncStep s { s with wloc := .wFlip }
  /-- Flip done: clear `s_encode_has_work`, unlock, notify done. -/
  | w_flip_done (s : EncSys) (h : s.wloc = .wFlip) :
      EncStep s { s with wloc := .wWrite, hasWork := false, lock := .free }
  /-- `write_frame` + counter + progress callback done (outside the
  lock); back to the loop head. -/
  | w_write_done (s : EncSys) (h : s.wloc = .wWrite) :
      EncStep s { s with wloc := .wWaitLock }

/-- States reachable from `enc_init` by interleaving the two threads. -/
def EncReachable (s : EncSys) : Prop :=
  Relation.ReflTransGen EncStep enc_init s

/-- The state in which the producer has just passed `wait_for_encode`
and is about to copy into the staging buffer. -/
def copy_state : EncSys :=
  { ploc := .pCopy, wloc := .wWaitLock, lock := .free,
    hasWork := false, shutdown := false }

/-! ### Lemmas and claim theorems -/

theorem parse_records_nil (bpf : Nat) (acc : KrecAcc) :
    parse_records bpf [] acc = acc := by
  simp [parse_records]

theorem parse_records_zero_step (bpf : Nat) (rest : List Nat) (acc : KrecAcc) :
    parse_records bpf (zero_record ++ rest) acc
      = parse_records bpf rest (recordStep bpf 0 rest acc) := by
  rw [zero_record, List.cons_append, List.cons_append, List.cons_append,
    List.nil_append, parse_records]
  simp

theorem parse_records_data_step (bpf : Nat) (payload rest : List Nat) (acc : KrecAcc)
    (h1 : 0 < payload.length) :
    parse_records bpf (data_record payload ++ rest) acc
      = parse_records bpf rest
          { acc with
            in_delay := false
            input_data := acc.input_data ++ payload
            total_input_frames := acc.total_input_frames + 1 } := by
  have hle : payload.length ≤ (payload ++ rest).length := by
    simp [List.length_append]
  rw [data_record, List.cons_append, List.cons_append, List.cons_append, parse_records]
  have hlen : payload.length % 256 + 256 * (payload.length / 256) = payload.length :=
    Nat.mod_add_div _ _
  simp only [hlen, if_true, recordStep, gt_iff_lt]
  rw [if_pos h1, if_pos hle, if_pos h1, List.take_left, List.drop_left]

theorem parse_records_zeros (bpf : Nat) (n : Nat) (rest : List Nat) :
    ∀ acc : KrecAcc, acc.in_delay = true →
      parse_records bpf ((List.replicate n zero_record).flatten ++ rest) acc
        = parse_records bpf rest
            { acc with
              input_data := acc.input_data ++ List.replicate (n * bpf) 0
              total_input_frames := acc.total_input_frames + n
              delay_frames := acc.delay_frames + n } := by
  induction n with
  | zero => intro acc _; simp
  | succ m ih =>
    intro acc hacc
    rw [List.replicate_succ, List.flatten_cons, List.append_assoc,
      parse_records_zero_step]
    have hstep : recordStep bpf 0 ((List.replicate m zero_record).flatten ++ rest) acc
        = { acc with
            input_data := acc.input_data ++ List.replicate bpf 0
            total_input_frames := acc.total_input_frames + 1
            delay_frames := acc.delay_frames + 1 } := by
      simp [recordStep, hacc]
    rw [hstep, ih _ (by simp [hacc])]
    have hmul : (m + 1) * bpf = bpf + m * bpf := by ring
    congr 1
    simp only [KrecAcc.mk.injEq, hmul, List.replicate_add, List.append_assoc]
    refine ⟨trivial, by omega, by omega, trivial⟩

theorem parse_records_datas (bpf : Nat) (payloads : List (List Nat)) :
    ∀ acc : KrecAcc, (∀ p ∈ payloads, 0 < p.length) →
      (parse_records bpf ((payloads.map data_record).flatten) acc).input_data
          = acc.input_data ++ payloads.flatten ∧
      (parse_records bpf ((payloads.map data_record).flatten) acc).total_input_frames
          = acc.total_input_frames + payloads.length ∧
      (parse_records bpf ((payloads.map data_record).flatten) acc).delay_frames
          = acc.delay_frames := by
  induction payloads with
  | nil => intro acc _; simp [parse_records_nil]
  | cons p ps ih =>
    intro acc hp
    rw [List.map_cons, List.flatten_cons,
      parse_records_data_step bpf p _ acc (hp p (by simp))]
    obtain ⟨h1, h2, h3⟩ := ih _ (fun q hq => hp q (by simp [hq]))
    refine ⟨?_, ?_, ?_⟩
    · rw [h1]; simp
    · rw [h2]; simp; omega
    · rw [h3]

theorem pif_replay_callback_synced (krec : Option KrecData) (pif : Pif)
    (s : ReplayState) (h : s.synced_this_frame = true) :
    (pif_replay_callback krec pif s).1 = s := by
  match krec with
  | none => rfl
  | some k =>
    simp only [pif_replay_callback]
    by_cases hf : s.replay_finished
    · simp [hf]
    · simp [hf, h]

theorem pif_replay_callback_cases (krec : Option KrecData) (pif : Pif)
    (s : ReplayState) :
    (pif_replay_callback krec pif s).1 = s ∨
      (s.synced_this_frame = false ∧
        ((pif_replay_callback krec pif s).1).synced_this_frame = true ∧
        ((pif_replay_callback krec pif s).1).input_frame_index
          ≤ s.input_frame_index + 1) := by
  cases krec with
  | none => exact Or.inl rfl
  | some k =>
    by_cases hf : s.replay_finished
    · left; simp [pif_replay_callback, hf]
    · by_cases hs : s.synced_this_frame
      · exact Or.inl (pif_replay_callback_synced _ _ _ hs)
      · have hs' : s.synced_this_frame = false := by simpa using hs
        by_cases hr : is_controller_read pif
        · right
          refine ⟨hs', ?_⟩
          simp only [pif_replay_callback, hf, Bool.false_eq_true, if_false, hr,
            hs', and_true, true_and, if_true]
          split
          · simp
          · simp
        · left; simp [pif_replay_callback, hf, hr]

theorem replay_fold_bound (krec : Option KrecData) (pifs : List Pif) :
    ∀ s : ReplayState,
      (pifs.foldl (fun st p => (pif_replay_callback krec p st).1) s).input_frame_index
        ≤ s.input_frame_index + (if s.synced_this_frame then 0 else 1) := by
  induction pifs with
  | nil => intro s; cases h : s.synced_this_frame <;> simp
  | cons p ps ih =>
    intro s
    simp only [List.foldl_cons]
    rcases pif_replay_callback_cases krec p s with h | ⟨hs0, hs1, hle⟩
    · rw [h]; exact ih s
    · have := ih ((pif_replay_callback krec p s).1)
      rw [hs1] at this
      simp only [if_true, hs0, if_false] at this ⊢
      simp only [Bool.false_eq_true, if_false] at this ⊢
      omega

/-! ### Theorems for claims C1, C2, C9, C10 -/

/-- C1: between two calls to `pif_replay_reset_frame_sync`, any number of
`pif_replay_callback` invocations (with arbitrary PIF contents and any
`s_krec`) advance `s_input_frame_index` by at most 1; and four poll
callbacks on four controller-read channels in one tick advance the frame
index by exactly 1. -/
theorem c1_at_most_one_advance_per_tick :
    (∀ (krec : Option KrecData) (s : ReplayState) (pifs : List Pif),
        (replay_tick krec s pifs).input_frame_index ≤ s.input_frame_index + 1) ∧
    (replay_tick (some krec_four_players) pif_replay_init
        [poll_pif, poll_pif, poll_pif, poll_pif]).input_frame_index
      = pif_replay_init.input_frame_index + 1 := by
  constructor
  · intro krec s pifs
    have h := replay_fold_bound krec pifs (pif_replay_reset_frame_sync s)
    simp only [pif_replay_reset_frame_sync, Bool.false_eq_true, if_false] at h
    simpa [replay_tick, pif_replay_reset_frame_sync] using h
  · decide

/-- C2: a record stream of `N` leading zero-length input records followed
by `M` data-carrying input records parses to `total_input_frames = N+M`,
`delay_frames = N`, and an `input_data` whose first `N` frame slots
(`bytes_per_frame` bytes each) are all zero. -/
theorem c2_delay_padding (npf : Int) (n : Nat) (payloads : List (List Nat))
    (h : ∀ p ∈ payloads, 0 < p.length ∧ p.length < 65536) :
    (krec_parse npf (delay_then_data n payloads)).total_input_frames
        = n + payloads.length ∧
    (krec_parse npf (delay_then_data n payloads)).delay_frames = n ∧
    (krec_parse npf (delay_then_data n payloads)).input_data
        = List.replicate (n * ((clamp_players npf).toNat * 4)) 0
            ++ payloads.flatten ∧
    (krec_parse npf (delay_then_data n payloads)).input_data.take
        (n * ((clamp_players npf).toNat * 4))
        = List.replicate (n * ((clamp_players npf).toNat * 4)) 0 := by
  simp only [krec_parse, delay_then_data]
  rw [parse_records_zeros _ n _ _ rfl]
  obtain ⟨h1, h2, h3⟩ := parse_records_datas ((clamp_players npf).toNat * 4) payloads
    { input_data := [] ++ List.replicate (n * ((clamp_players npf).toNat * 4)) 0
      total_input_frames := 0 + n
      delay_frames := 0 + n
      in_delay := true } (fun p hp => (h p hp).1)
  refine ⟨?_, ?_, ?_, ?_⟩
  · rw [h2]
    show 0 + n + payloads.length = n + payloads.length
    omega
  · rw [h3]
    show 0 + n = n
    omega
  · rw [h1]; simp
  · rw [h1]
    simp only [List.nil_append]
    exact List.take_left' (by simp)

/-- Witness for C2 at `N = 2`, `M = 2`, one recorded player. -/
theorem c2_delay_padding_witness :
    (∀ p ∈ [[1, 2, 3, 4], [5, 6, 7, 8]], 0 < List.length p ∧ List.length p < 65536) ∧
    (krec_parse 1 (delay_then_data 2 [[1, 2, 3, 4], [5, 6, 7, 8]])).total_input_frames
        = 2 + 2 ∧
    (krec_parse 1 (delay_then_data 2 [[1, 2, 3, 4], [5, 6, 7, 8]])).delay_frames = 2 := by
  have h := c2_delay_padding 1 2 [[1, 2, 3, 4], [5, 6, 7, 8]] (by decide)
  exact ⟨by decide, h.1, h.2.1⟩

/-- C9 counterexample: the claim asserts the stored header player-count
field lies in [1,4] for every parsed log, but `krec_parse` stores the
raw metadata value (here 5) in `header.num_players`. -/
theorem c9_counterexample :
    (krec_parse 5 []).header.num_players = 5 ∧
    ¬ (1 ≤ (krec_parse 5 []).header.num_players ∧
        (krec_parse 5 []).header.num_players ≤ 4) := by
  constructor
  · rfl
  · intro hcl
    have : (5 : Int) ≤ 4 := hcl.2
    omega

/-- C9 amended: the clamp used by `krec_parse` (for `bytes_per_frame`)
and by `pif_replay_callback` always lies in [1,4], but the stored header
field keeps the raw metadata value, and `convert_one` passes that raw
value to `configure_controllers_for_replay` — so with recorded
`num_players = 0` no controller is marked plugged in, while the clamped
count would plug in controller 0. -/
theorem c9_clamp_internal_only :
    (∀ n : Int, 1 ≤ clamp_players n ∧ clamp_players n ≤ 4) ∧
    (∀ (npf : Int) (records : List Nat),
        (krec_parse npf records).header.num_players = npf) ∧
    convert_one_controllers (krec_parse 0 []) = (fun _ => false) ∧
    configure_controllers_for_replay (clamp_players 0) 0 = true := by
  refine ⟨?_, fun npf records => rfl, by decide, by decide⟩
  intro n
  simp only [clamp_players]
  split <;> split <;> omega

/-- C10: `pif_replay_callback` reads `input_data` only within bounds —
every byte index it reads is below `input_data.size()` — and when the
frame at `s_input_frame_index` would run past the end it reads nothing,
sets the finished flag, zeroes the cached input, and leaves the frame
index unchanged. -/
theorem c10_no_out_of_bounds_read (k : KrecData) (pif : Pif) (s : ReplayState) :
    (∀ i ∈ (pif_replay_callback (some k) pif s).2, i < k.input_data.length) ∧
    (s.replay_finished = false → is_controller_read pif = true →
      s.synced_this_frame = false →
      k.input_data.length
          < s.input_frame_index * ((clamp_players k.header.num_players).toNat * 4)
            + (clamp_players k.header.num_players).toNat * 4 →
      (pif_replay_callback (some k) pif s).2 = [] ∧
      ((pif_replay_callback (some k) pif s).1).replay_finished = true ∧
      ((pif_replay_callback (some k) pif s).1).cached_input = (fun _ => 0) ∧
      ((pif_replay_callback (some k) pif s).1).input_frame_index
        = s.input_frame_index) := by
  constructor
  · intro i hi
    by_cases hf : s.replay_finished
    · simp [pif_replay_callback, hf] at hi
    · by_cases hr : is_controller_read pif
      · by_cases hs : s.synced_this_frame
        · simp [pif_replay_callback, hf, hs] at hi
        · have hs' : s.synced_this_frame = false := by simpa using hs
          simp only [pif_replay_callback, hf, Bool.false_eq_true, if_false, hr,
            hs', and_true, true_and, if_true] at hi
          by_cases hb : s.input_frame_index
              * ((clamp_players k.header.num_players).toNat * 4)
              + (clamp_players k.header.num_players).toNat * 4
              ≤ k.input_data.length
          · rw [if_pos hb] at hi
            simp only [List.mem_map, List.mem_range] at hi
            obtain ⟨j, hj, rfl⟩ := hi
            omega
          · rw [if_neg hb] at hi
            simp at hi
      · simp [pif_replay_callback, hf, hr] at hi
  · intro hf hr hs hbound
    have hb : ¬ (s.input_frame_index * ((clamp_players k.header.num_players).toNat * 4)
        + (clamp_players k.header.num_players).toNat * 4 ≤ k.input_data.length) := by
      omega
    simp only [pif_replay_callback, hf, Bool.false_eq_true, if_false, hr, hs,
      and_true, true_and, if_true, if_neg hb]

/-- Witness for C10: the in-bounds conjunct at index 0 of a fresh
one-player session, and the exhausted branch at frame index 1 of the same
4-byte log. -/
theorem c10_no_out_of_bounds_read_witness :
    (0 ∈ (pif_replay_callback (some krec_one_player) poll_pif pif_replay_init).2 →
      0 < krec_one_player.input_data.length) ∧
    ((pif_replay_callback (some krec_one_player) poll_pif
        { pif_replay_init with input_frame_index := 1 }).2 = [] ∧
      ((pif_replay_callback (some krec_one_player) poll_pif
        { pif_replay_init with input_frame_index := 1 }).1).replay_finished = true ∧
      ((pif_replay_callback (some krec_one_player) poll_pif
        { pif_replay_init with input_frame_index := 1 }).1).cached_input
          = (fun _ => 0) ∧
      ((pif_replay_callback (some krec_one_player) poll_pif
        { pif_replay_init with input_frame_index := 1 }).1).input_frame_index = 1) := by
  constructor
  · exact (c10_no_out_of_bounds_read krec_one_player poll_pif pif_replay_init).1 0
  · exact (c10_no_out_of_bounds_read krec_one_player poll_pif
      { pif_replay_init with input_frame_index := 1 }).2
      (by decide) (by decide) (by decide) (by decide)

/-! ### Theorems for claims C3, C5, C6, C7, C8 -/

/-- C3: the A/V synchronizer returns
`audioDuration / videoDuration` with `audioDuration =
audioByteCount / (audioSampleRate * 4)` and `videoDuration =
capturedFrameCount / requestedFrameRate`, guarded to 1 when either
duration is not positive; at `audioByteCount = 33600*4*10`,
`capturedFrameCount = 598`, `requestedFrameRate = 60` the video duration
is `598/60 ≈ 9.967` s and the scale is `10/(598/60) = 300/299 ≈ 1.0033`. -/
theorem c3_av_scale :
    (∀ audio_bytes audio_freq frames fps : ℚ,
        audio_bytes / (audio_freq * 4) > 0 → frames / fps > 0 →
        mux_itsscale audio_bytes audio_freq frames fps
          = (audio_bytes / (audio_freq * 4)) / (frames / fps)) ∧
    (∀ audio_bytes audio_freq frames fps : ℚ,
        ¬ (audio_bytes / (audio_freq * 4) > 0 ∧ frames / fps > 0) →
        mux_itsscale audio_bytes audio_freq frames fps = 1) ∧
    mux_itsscale (33600 * 4 * 10) 33600 598 60 = 10 / (598 / 60) ∧
    mux_itsscale (33600 * 4 * 10) 33600 598 60 = 300 / 299 ∧
    (9.96 : ℚ) < 598 / 60 ∧ (598 : ℚ) / 60 < 9.97 ∧
    (1.0033 : ℚ) < 300 / 299 ∧ (300 : ℚ) / 299 < 1.0034 := by
  refine ⟨?_, ?_, by norm_num [mux_itsscale], by norm_num [mux_itsscale],
    by norm_num, by norm_num, by norm_num, by norm_num⟩
  · intro audio_bytes audio_freq frames fps h1 h2
    simp [mux_itsscale, h1, h2]
  · intro audio_bytes audio_freq frames fps h
    simp only [mux_itsscale, if_neg h]

/-- Witness for C3: the formula part at the concrete spec inputs and the
guard part at a zero audio byte count. -/
theorem c3_av_scale_witness :
    ((33600 * 4 * 10 : ℚ) / (33600 * 4) > 0 ∧ (598 : ℚ) / 60 > 0 ∧
      mux_itsscale (33600 * 4 * 10) 33600 598 60
        = ((33600 * 4 * 10 : ℚ) / (33600 * 4)) / (598 / 60)) ∧
    (¬ ((0 : ℚ) / (33600 * 4) > 0 ∧ (598 : ℚ) / 60 > 0) ∧
      mux_itsscale 0 33600 598 60 = 1) := by
  constructor
  · exact ⟨by norm_num, by norm_num,
      c3_av_scale.1 (33600 * 4 * 10) 33600 598 60 (by norm_num) (by norm_num)⟩
  · exact ⟨by norm_num,
      c3_av_scale.2.1 0 33600 598 60 (by norm_num)⟩

/-- C5 counterexample: the claim says the shutdown sequence on session
end includes cancellation and begins by draining the pending CaptureSlot
into one final encode job before joining the worker; but on cancellation
`frame_capture_callback` calls `cleanup_pbos` directly — the trace is
join, release, stop, with no drain (no `waitEncode`/`mapCopy`/`postJob`)
even though a slot is pending. -/
theorem c5_counterexample :
    frame_capture_callback cancel_env pending_slot_state
      = ({ pending_slot_state with pbo_initialized := false, pbo_has_data := false },
         [CapAct.joinWorker, CapAct.deleteBuffers, CapAct.stopEmu]) ∧
    CapAct.waitEncode ∉ (frame_capture_callback cancel_env pending_slot_state).2 ∧
    CapAct.mapCopy 1 ∉ (frame_capture_callback cancel_env pending_slot_state).2 ∧
    CapAct.postJob 640 480 ∉ (frame_capture_callback cancel_env pending_slot_state).2 := by
  decide

/-- C5 amended: `frame_capture_flush` performs the shutdown sequence in
the claimed order — (a) drain the pending CaptureSlot into one final
encode job, (b) block until the worker finishes it, (c) join the worker
thread, (d) release the GPU transfer buffers; the cancellation path of
`frame_capture_callback`, however, joins the worker and releases the
buffers without draining the pending slot. -/
theorem c5_flush_shutdown_order :
    (∀ (env : CaptureEnv) (s : CaptureState),
        s.pbo_initialized = true → s.pbo_has_data = true → env.map_ok = true →
        frame_capture_flush env s
          = ({ s with pbo_initialized := false, pbo_has_data := false },
             [CapAct.waitEncode, CapAct.mapCopy (1 - s.pbo_index),
              CapAct.postJob s.pbo_width s.pbo_height,
              CapAct.waitEncode, CapAct.joinWorker, CapAct.deleteBuffers])) ∧
    (∀ (env : CaptureEnv) (s : CaptureState),
        env.cancel = true → env.emu_present = true →
        frame_capture_callback env s
          = ((cleanup_pbos s).1, (cleanup_pbos s).2 ++ [CapAct.stopEmu])) := by
  constructor
  · intro env s h1 h2 h3
    simp [frame_capture_flush, process_pbo_async, cleanup_pbos, h1, h2, h3]
  · intro env s h1 h2
    simp [frame_capture_callback, h1, h2]

/-- Witness for C5's amended theorem at the pending-slot fixture. -/
theorem c5_flush_shutdown_order_witness :
    (pending_slot_state.pbo_initialized = true ∧
      pending_slot_state.pbo_has_data = true ∧
      cancel_env.map_ok = true ∧
      frame_capture_flush cancel_env pending_slot_state
        = ({ pending_slot_state with
              pbo_initialized := false, pbo_has_data := false },
           [CapAct.waitEncode, CapAct.mapCopy 1, CapAct.postJob 640 480,
            CapAct.waitEncode, CapAct.joinWorker, CapAct.deleteBuffers])) ∧
    (cancel_env.cancel = true ∧
      frame_capture_callback cancel_env pending_slot_state
        = ((cleanup_pbos pending_slot_state).1,
           (cleanup_pbos pending_slot_state).2 ++ [CapAct.stopEmu])) := by
  constructor
  · refine ⟨by decide, by decide, by decide, ?_⟩
    have h := c5_flush_shutdown_order.1 cancel_env pending_slot_state
      (by decide) (by decide) (by decide)
    simpa using h
  · exact ⟨by decide,
      c5_flush_shutdown_order.2 cancel_env pending_slot_state (by decide) (by decide)⟩

/-- C6: once the replay's finished flag is set, `pif_replay_callback`
returns with the state unchanged and reads no `input_data` byte; and
`frame_capture_callback`, observing the finished flag (cancel clear),
resets the frame-sync guard, issues the emulator stop command, and
performs no capture work. -/
theorem c6_finished_terminal :
    (∀ (k : KrecData) (pif : Pif) (s : ReplayState),
        s.replay_finished = true →
        pif_replay_callback (some k) pif s = (s, [])) ∧
    (∀ (env : CaptureEnv) (cs : CaptureState),
        env.cancel = false → env.replay_finished = true → env.emu_present = true →
        frame_capture_callback env cs
          = ({ cs with speed_limiter_disabled := true },
             (if cs.speed_limiter_disabled then [] else [CapAct.disableSpeedLimiter])
               ++ [CapAct.resetFrameSync, CapAct.stopEmu])) := by
  constructor
  · intro k pif s h
    simp [pif_replay_callback, h]
  · intro env cs h1 h2 h3
    by_cases hsl : cs.speed_limiter_disabled
    · have hcs : ({ cs with speed_limiter_disabled := true } : CaptureState) = cs := by
        cases cs
        simp_all
      simp [frame_capture_callback, h1, h2, h3, hsl, hcs]
    · simp [frame_capture_callback, h1, h2, h3, hsl]

/-- Witness for C6 at a finished replay state and the finished-replay
capture environment. -/
theorem c6_finished_terminal_witness :
    (pif_replay_callback (some krec_one_player) poll_pif
        { pif_replay_init with replay_finished := true }
      = ({ pif_replay_init with replay_finished := true }, [])) ∧
    (frame_capture_callback finished_env pending_slot_state
      = ({ pending_slot_state with speed_limiter_disabled := true },
         [CapAct.resetFrameSync, CapAct.stopEmu])) := by
  constructor
  · exact c6_finished_terminal.1 krec_one_player poll_pif
      { pif_replay_init with replay_finished := true } (by decide)
  · have h := c6_finished_terminal.2 finished_env pending_slot_state
      (by decide) (by decide) (by decide)
    simpa using h

/-- C7 counterexample: the claim says cancellation mid-session is not a
failure and still produces a valid output file; but with the cancel flag
set after 50 captured frames of a 500-frame replay, `convert_one`'s
epilogue removes both temporary files and returns false — no output file
is produced. -/
theorem c7_counterexample :
    convert_one_epilogue
        { cancelled := true, frames_captured := 50, audio_bytes := 1344000,
          mux_ok := true, progress_set := true }
      = (false, [ConvAct.removeTempVideo, ConvAct.removeTempAudio]) ∧
    (50 : Int) < 500 := by
  decide

/-- C7 amended: cancellation mid-session ends the session early and
cleanly — the capture callback joins the worker, releases the GPU
buffers, captures nothing further and stops the core — but `convert_one`
treats the cancelled session as a failed conversion: it removes the
temporary video/audio files and returns false, producing no output
file. -/
theorem c7_cancel_short_session :
    (∀ (env : CaptureEnv) (s : CaptureState),
        env.cancel = true → env.emu_present = true →
        frame_capture_callback env s
            = ((cleanup_pbos s).1, (cleanup_pbos s).2 ++ [CapAct.stopEmu]) ∧
        ((frame_capture_callback env s).1).captured_frames = s.captured_frames) ∧
    (∀ e : ConvertEnd, e.cancelled = true →
        convert_one_epilogue e
          = (false, [ConvAct.removeTempVideo, ConvAct.removeTempAudio])) := by
  constructor
  · intro env s h1 h2
    have heq : frame_capture_callback env s
        = ((cleanup_pbos s).1, (cleanup_pbos s).2 ++ [CapAct.stopEmu]) := by
      simp [frame_capture_callback, h1, h2]
    refine ⟨heq, ?_⟩
    rw [heq]
    simp only [cleanup_pbos]
    split <;> rfl
  · intro e h
    simp [convert_one_epilogue, h]

/-- Witness for C7's amended theorem at the cancelled fixture. -/
theorem c7_cancel_short_session_witness :
    (frame_capture_callback cancel_env pending_slot_state
        = ((cleanup_pbos pending_slot_state).1,
           (cleanup_pbos pending_slot_state).2 ++ [CapAct.stopEmu]) ∧
      ((frame_capture_callback cancel_env pending_slot_state).1).captured_frames
        = pending_slot_state.captured_frames) ∧
    convert_one_epilogue
        { cancelled := true, frames_captured := 50, audio_bytes := 1344000,
          mux_ok := true, progress_set := true }
      = (false, [ConvAct.removeTempVideo, ConvAct.removeTempAudio]) := by
  constructor
  · exact c7_cancel_short_session.1 cancel_env pending_slot_state
      (by decide) (by decide)
  · exact c7_cancel_short_session.2
      { cancelled := true, frames_captured := 50, audio_bytes := 1344000,
        mux_ok := true, progress_set := true } (by decide)

/-- C8: when no frames were captured (`frames_captured <= 0`),
`convert_one`'s epilogue removes the partial temporary video and audio
files and returns false, never an empty success. -/
theorem c8_zero_frames_failure (e : ConvertEnd) (h : e.frames_captured ≤ 0) :
    convert_one_epilogue e
      = (false, [ConvAct.removeTempVideo, ConvAct.removeTempAudio]) := by
  by_cases hc : e.cancelled
  · simp [convert_one_epilogue, hc]
  · simp [convert_one_epilogue, hc, h]

/-- Witness for C8 at a zero-frame uncancelled session. -/
theorem c8_zero_frames_failure_witness :
    ((0 : Int) ≤ 0) ∧
    convert_one_epilogue
        { cancelled := false, frames_captured := 0, audio_bytes := 0,
          mux_ok := true, progress_set := false }
      = (false, [ConvAct.removeTempVideo, ConvAct.removeTempAudio]) :=
  ⟨by decide,
    c8_zero_frames_failure
      { cancelled := false, frames_captured := 0, audio_bytes := 0,
        mux_ok := true, progress_set := false } (by decide)⟩

theorem enc_step_preserves {a b : EncSys} (h : EncStep a b)
    (ih : (a.ploc = .pCopy ∨ a.ploc = .pLock2 ∨ a.ploc = .pSet) → a.hasWork = false) :
    (b.ploc = .pCopy ∨ b.ploc = .pLock2 ∨ b.ploc = .pSet) → b.hasWork = false := by
  cases h <;> simp_all

/-- C4: in every reachable interleaving, whenever the producer is past
`wait_for_encode` — copying into the staging buffer (`pCopy`,
`pLock2`) or publishing the job (`pSet`) — the previous job's
`s_encode_has_work` flag is false: the producer never overwrites the
staging buffer, and never raises the flag, while the previous job is
still pending. -/
theorem c4_producer_backpressure (s : EncSys) (h : EncReachable s)
    (hp : s.ploc = .pCopy ∨ s.ploc = .pLock2 ∨ s.ploc = .pSet) :
    s.hasWork = false := by
  induction h with
  | refl => revert hp; decide
  | tail _ hstep ih => exact enc_step_preserves hstep ih hp

/-- Witness for C4: `copy_state` is reachable in three steps, and
applying the claim theorem there yields `hasWork = false`. -/
theorem c4_producer_backpressure_witness :
    (copy_state.ploc = .pCopy ∨ copy_state.ploc = .pLock2 ∨
      copy_state.ploc = .pSet) ∧
    copy_state.hasWork = false := by
  have h1 : EncStep enc_init
      { ploc := .pWaitLock, wloc := .wWaitLock, lock := .free,
        hasWork := false, shutdown := false } :=
    EncStep.p_begin_post enc_init rfl
  have h2 : EncStep
      { ploc := .pWaitLock, wloc := .wWaitLock, lock := .free,
        hasWork := false, shutdown := false }
      { ploc := .pWaitCheck, wloc := .wWaitLock, lock := .byProducer,
        hasWork := false, shutdown := false } :=
    EncStep.p_wait_acquire _ rfl rfl
  have h3 : EncStep
      { ploc := .pWaitCheck, wloc := .wWaitLock, lock := .byProducer,
        hasWork := false, shutdown := false }
      copy_state :=
    EncStep.p_wait_ready _ rfl rfl
  have hreach : EncReachable copy_state :=
    Relation.ReflTransGen.tail
      (Relation.ReflTransGen.tail
        (Relation.ReflTransGen.tail Relation.ReflTransGen.refl h1) h2) h3
  exact ⟨Or.inl rfl,
    c4_producer_backpressure _ hreach (Or.inl rfl)⟩

end Krec2MP4

